import Mathlib

/-!
Shallow embedding of `src/tutorial/tutsim.py`, a discrete-time agent-based
epidemic simulator, together with proofs of the specified properties.

Python floats are modelled by `ℚ`, Python ints by `ℕ`/`ℤ`, and the global
seeded pseudo-random state by an explicit `RNG` value threaded through every
definition.  Fallible operations (Python's `ZeroDivisionError`) return
`Except PyErr`.
-/

namespace Tutsim

/-- `YEAR = 365.25` from the source. -/
def YEAR : ℚ := 365.25

/-- `MALE = 0` from the source. -/
def MALE : ℕ := 0

/-- `FEMALE = 1` from the source. -/
def FEMALE : ℕ := 1

/-- Deterministic random source modelling Python's `random` and
`numpy.random` modules after `random.seed(...)` / `numpy.random.seed(...)`:
the seed fixes the entire stream of future draws.  `reals` models the
successive outputs of `random.random()` (also used by `random.uniform`),
`ints` models integer draws (`random.randint`, the shuffle's internal
`_randbelow`), and `geoms` models `numpy.random.geometric` draws.  The
cursors `r`, `i`, `g` index the next unconsumed element of each stream. -/
@[ext]
structure RNG where
  reals : ℕ → ℚ
  ints : ℕ → ℕ
  geoms : ℕ → ℕ
  r : ℕ := 0
  i : ℕ := 0
  g : ℕ := 0

/-- Library contract of the modelled generators: `random.random()` yields
values in `[0, 1)` and `numpy.random.geometric` counts Bernoulli trials up to
and including the first success, hence is at least 1. -/
def RNG.wf (rng : RNG) : Prop :=
  (∀ k, 0 ≤ rng.reals k ∧ rng.reals k < 1) ∧ (∀ k, 1 ≤ rng.geoms k)

/-- One `random.random()` draw. -/
def RNG.random (rng : RNG) : ℚ × RNG :=
  (rng.reals rng.r, { rng with r := rng.r + 1 })

/-- `random.uniform(a, b)`, which is `a + (b - a) * random.random()`. -/
def RNG.uniform (a b : ℚ) (rng : RNG) : ℚ × RNG :=
  (a + (b - a) * rng.reals rng.r, { rng with r := rng.r + 1 })

/-- `random.randint(low, high)`: inclusive integer draw. -/
def RNG.randint (low high : ℕ) (rng : RNG) : ℕ × RNG :=
  (low + rng.ints rng.i % (high - low + 1), { rng with i := rng.i + 1 })

/-- `random._randbelow(n)`: integer draw in `[0, n)`, used by `random.shuffle`. -/
def RNG.randbelow (n : ℕ) (rng : RNG) : ℕ × RNG :=
  (rng.ints rng.i % n, { rng with i := rng.i + 1 })

/-- `numpy.random.geometric(p)`: number of trials to first success. -/
def RNG.geometric (rng : RNG) : ℕ × RNG :=
  (rng.geoms rng.g, { rng with g := rng.g + 1 })

/-- One agent.  `hiv` is the infection stage; it is an `ℤ` because the source
computes `min(numpy.random.geometric(p=0.9) - 1, 5)` with Python integer
subtraction, which is not clamped below. -/
structure Agent where
  sex : ℕ
  age : ℚ
  hiv : ℤ
deriving DecidableEq

/-- `Agent.__init__`: draw sex, age and initial infection stage. -/
def Agent.init (rng : RNG) : Agent × RNG :=
  let (s, rng1) := RNG.randint MALE FEMALE rng
  let (a, rng2) := RNG.uniform 15 20 rng1
  let (g, rng3) := RNG.geometric rng2
  ({ sex := s, age := a, hiv := min ((g : ℤ) - 1) 5 }, rng3)

/-- `Agent.infection_event`: only a stage-0 agent computes the risk, draws one
uniform real and, when the draw is below the risk, moves to stage 1. -/
def infection_event (a : Agent) (prevalence prob_new_partner force_infection : ℚ)
    (rng : RNG) : Agent × RNG :=
  if a.hiv = 0 then
    let risk_infection := force_infection * prob_new_partner * prevalence
    let (u, rng1) := RNG.random rng
    if u < risk_infection then ({ a with hiv := 1 }, rng1) else (a, rng1)
  else (a, rng)

/-- `Agent.age_event`: `age += time_elapsed`. -/
def age_event (a : Agent) (time_elapsed : ℚ) : Agent :=
  { a with age := a.age + time_elapsed }

/-- A call to one of the two agent event methods. -/
inductive Ev
  | infection (prevalence prob_new_partner force_infection : ℚ)
  | age (time_elapsed : ℚ)

/-- Apply one event call to an agent, threading the random state. -/
def applyEv (a : Agent) (rng : RNG) : Ev → Agent × RNG
  | Ev.infection pv pn fi => infection_event a pv pn fi rng
  | Ev.age t => (age_event a t, rng)

/-- Apply a sequence of event calls to an agent. -/
def applyEvs (a : Agent) (rng : RNG) : List Ev → Agent × RNG
  | [] => (a, rng)
  | e :: es =>
    let (a1, rng1) := applyEv a rng e
    applyEvs a1 rng1 es

/-- A concrete well-formed random source used to instantiate theorems. -/
def constRng : RNG :=
  { reals := fun _ => 0, ints := fun _ => 0, geoms := fun _ => 1 }

/-- Python runtime errors raised by the translated fragments.  The source only
ever raises `zeroDivision` (`ZeroDivisionError`); `emptyPopulation` is the
explicit guard condition the specification asks for, which the source never
produces. -/
inductive PyErr
  | zeroDivision
  | emptyPopulation
deriving DecidableEq

/-- The `(date, num_infected, prevalence)` tuple printed by `report`. -/
structure Report where
  date : ℚ
  numInfected : ℕ
  prevalence : ℚ
deriving DecidableEq

/-- `len([a.hiv for a in agents if a.hiv > 0])`. -/
def infectedCount (agents : List Agent) : ℕ :=
  List.countP (fun a => decide (0 < a.hiv)) agents

/-- The expression `len([a.hiv for a in agents if a.hiv > 0]) / len(agents)`,
as written both inside `report` and inside the `simulate` loop. -/
def prevalenceOf (agents : List Agent) : ℚ :=
  (infectedCount agents : ℚ) / agents.length

/-- `report(date, agents)`: dividing by `len(agents)` raises
`ZeroDivisionError` on an empty population. -/
def report (date : ℚ) (agents : List Agent) : Except PyErr Report :=
  if agents.length = 0 then Except.error PyErr.zeroDivision
  else Except.ok { date := date, numInfected := infectedCount agents,
                   prevalence := prevalenceOf agents }

/-- Swap entries `i` and `j` of a list (identity out of bounds). -/
def lswap (l : List α) (i j : ℕ) : List α :=
  if hi : i < l.length then
    if hj : j < l.length then
      (l.set i (l.get ⟨j, hj⟩)).set j (l.get ⟨i, hi⟩)
    else l
  else l

/-- `random.shuffle`, Fisher–Yates: for `i` in `reversed(range(1, n))`, swap
position `i` with a draw below `i + 1`.  `shuffleFrom l rng i` performs the
swaps for positions `i, i-1, …, 1`. -/
def shuffleFrom : List α → RNG → ℕ → List α × RNG
  | l, rng, 0 => (l, rng)
  | l, rng, i + 1 =>
    let (j, rng1) := RNG.randbelow (i + 2) rng
    shuffleFrom (lswap l (i + 1) j) rng1 i

/-- `random.shuffle(agents)` on a whole list. -/
def shuffleList (l : List α) (rng : RNG) : List α × RNG :=
  shuffleFrom l rng (l.length - 1)

/-- The `parameters` dictionary of the source. -/
structure Params where
  NUM_YEARS : ℚ
  TIME_STEP : ℚ
  START_DATE : ℚ
  PROB_NEW_PARTNER : ℚ
  FORCE_INFECTION : ℚ
deriving DecidableEq

/-- Python `int()` applied to a float: truncation toward zero. -/
def pyInt (q : ℚ) : ℤ := if 0 ≤ q then ⌊q⌋ else -⌊-q⌋

/-- The body of the per-agent loop inside `simulate`: each agent runs
`infection_event` with the step's frozen prevalence, then `age_event`. -/
def stepAgents (prevalence prob_new_partner force_infection time_step : ℚ) :
    List Agent → RNG → List Agent × RNG
  | [], rng => ([], rng)
  | a :: rest, rng =>
    let (a1, rng1) := infection_event a prevalence prob_new_partner force_infection rng
    let a2 := age_event a1 time_step
    let (rest2, rng2) :=
      stepAgents prevalence prob_new_partner force_infection time_step rest rng1
    (a2 :: rest2, rng2)

/-- Generalisation of the per-agent loop in which the `j`-th agent may be fed
its own prevalence value; the actual loop is the instance feeding every agent
one frozen value. -/
def stepAgentsGen (prob_new_partner force_infection time_step : ℚ) :
    List ℚ → List Agent → RNG → List Agent × RNG
  | _, [], rng => ([], rng)
  | pvs, a :: rest, rng =>
    let (a1, rng1) :=
      infection_event a (pvs.headD 0) prob_new_partner force_infection rng
    let a2 := age_event a1 time_step
    let (rest2, rng2) :=
      stepAgentsGen prob_new_partner force_infection time_step pvs.tail rest rng1
    (a2 :: rest2, rng2)

/-- The mutation part of one step: shuffle, freeze the prevalence computed on
the shuffled pre-mutation population, then run the per-agent loop with it. -/
def stepCore (p : Params) (agents : List Agent) (rng : RNG) :
    List Agent × RNG :=
  let (shuffled, rng1) := shuffleList agents rng
  stepAgents (prevalenceOf shuffled) p.PROB_NEW_PARTNER p.FORCE_INFECTION
    p.TIME_STEP shuffled rng1

/-- One iteration of the `simulate` loop at index `i`: shuffle, compute the
step's prevalence once, run both events for every agent with that value, then
report on the mutated population. -/
def simStep (p : Params) (i : ℕ) (agents : List Agent) (rng : RNG) :
    Except PyErr (Report × List Agent × RNG) :=
  let (shuffled, rng1) := shuffleList agents rng
  if shuffled.length = 0 then Except.error PyErr.zeroDivision
  else
    let prevalence := prevalenceOf shuffled
    let (agents2, rng2) :=
      stepAgents prevalence p.PROB_NEW_PARTNER p.FORCE_INFECTION p.TIME_STEP
        shuffled rng1
    match report (p.START_DATE + (i : ℚ) / YEAR) agents2 with
    | Except.error e => Except.error e
    | Except.ok rep => Except.ok (rep, agents2, rng2)

/-- The `for i in range(num_iterations)` loop of `simulate`, accumulating the
reports. -/
def simLoop (p : Params) : ℕ → ℕ → List Agent → RNG →
    Except PyErr (List Report × List Agent × RNG)
  | 0, _, agents, rng => Except.ok ([], agents, rng)
  | k + 1, i, agents, rng =>
    match simStep p i agents rng with
    | Except.error e => Except.error e
    | Except.ok (rep, agents2, rng2) =>
      match simLoop p k (i + 1) agents2 rng2 with
      | Except.error e => Except.error e
      | Except.ok (reps, agents3, rng3) => Except.ok (rep :: reps, agents3, rng3)

/-- `simulate(agents, parameters)`: `num_iterations = int(NUM_YEARS / TIME_STEP)`
(a `ZeroDivisionError` when `TIME_STEP` is 0), then the loop over
`range(num_iterations)`, which is empty when `num_iterations ≤ 0`. -/
def simulate (agents : List Agent) (p : Params) (rng : RNG) :
    Except PyErr (List Report × List Agent × RNG) :=
  if p.TIME_STEP = 0 then Except.error PyErr.zeroDivision
  else simLoop p (pyInt (p.NUM_YEARS / p.TIME_STEP)).toNat 0 agents rng

/-- `[Agent() for _ in range(n)]`, threading the global random state. -/
def mkAgents : ℕ → RNG → List Agent × RNG
  | 0, rng => ([], rng)
  | n + 1, rng =>
    let (a, rng1) := Agent.init rng
    let (rest, rng2) := mkAgents n rng1
    (a :: rest, rng2)

/-- The statistics computed by `print_verbose_agent_info`: male count, average
age, youngest age, oldest age and the per-stage counts for stages `0…5`.  The
average divides by `len(agents)`, so an empty population raises
`ZeroDivisionError`; on the non-empty path `minimum?`/`maximum?` always return
a value and the default is never used. -/
structure VerboseStats where
  males : ℕ
  avg_age : ℚ
  youngest : ℚ
  oldest : ℚ
  hiv_counts : List ℕ
deriving DecidableEq

/-- `print_verbose_agent_info(agents)`, capturing the values it prints. -/
def print_verbose_agent_info (agents : List Agent) :
    Except PyErr VerboseStats :=
  if agents.length = 0 then Except.error PyErr.zeroDivision
  else
    Except.ok
      { males := List.countP (fun a => decide (a.sex = MALE)) agents
        avg_age := (agents.map Agent.age).sum / agents.length
        youngest := ((agents.map Agent.age).min?).getD 0
        oldest := ((agents.map Agent.age).max?).getD 0
        hiv_counts :=
          (List.range 6).map
            (fun s => (agents.map Agent.hiv).count (s : ℤ)) }

/-- A linear congruential generator standing in for the deterministic
pseudo-random algorithm of the seeded Python libraries. -/
def lcg (s : ℕ) : ℕ := (1103515245 * s + 12345) % 4294967296

/-- Iterated generator values derived from a seed. -/
def lcgIter (seed : ℕ) : ℕ → ℕ
  | 0 => lcg (seed + 1)
  | n + 1 => lcg (lcgIter seed n)

/-- Models `random.seed(s)` together with `numpy.random.seed(s)`: the seed
alone determines every stream of the random source (the source seeds both
libraries with the constant 23 at module load). -/
def rngOfSeed (seed : ℕ) : RNG :=
  { reals := fun k => (lcgIter seed (3 * k) % 1048576 : ℚ) / 1048576
    ints := fun k => lcgIter seed (3 * k + 1)
    geoms := fun k => lcgIter seed (3 * k + 2) % 6 + 1 }

/-- The `(date, infected, prevalence)` tuples a whole program run prints:
construct the population from the seeded random source, then simulate. -/
def runReports (numAgents : ℕ) (p : Params) (rng : RNG) :
    Except PyErr (List Report) :=
  let (agents, rng1) := mkAgents numAgents rng
  Except.map (fun x => x.1) (simulate agents p rng1)

/-- `true` exactly when the computation did not raise. -/
def exceptIsOk : Except PyErr α → Bool
  | Except.ok _ => true
  | Except.error _ => false

/-- The report list of a run of `simulate` (empty if it raised). -/
def simReports (agents : List Agent) (p : Params) (rng : RNG) : List Report :=
  match simulate agents p rng with
  | Except.ok x => x.1
  | Except.error _ => []

/-- The final population of a run of `simulate` (empty if it raised). -/
def simFinal (agents : List Agent) (p : Params) (rng : RNG) : List Agent :=
  match simulate agents p rng with
  | Except.ok x => x.2.1
  | Except.error _ => []

/-- A placeholder report used as the out-of-range default of `List.getD`. -/
def defaultReport : Report := { date := 0, numInfected := 0, prevalence := 0 }

/-- The report produced by one `simStep` (placeholder if it raised). -/
def stepReport (p : Params) (i : ℕ) (agents : List Agent) (rng : RNG) : Report :=
  match simStep p i agents rng with
  | Except.ok x => x.1
  | Except.error _ => defaultReport

/-- The population after one `simStep` (empty if it raised). -/
def stepFinal (p : Params) (i : ℕ) (agents : List Agent) (rng : RNG) :
    List Agent :=
  match simStep p i agents rng with
  | Except.ok x => x.2.1
  | Except.error _ => []

/-- A concrete infected agent used to instantiate theorems. -/
def agent1 : Agent := { sex := 0, age := 15, hiv := 1 }

/-- Concrete parameters with a negative time step. -/
def pNeg : Params :=
  { NUM_YEARS := 2, TIME_STEP := -1, START_DATE := 2015,
    PROB_NEW_PARTNER := 22 / 1000, FORCE_INFECTION := 1 / 10 }

/-- Concrete parameters with a zero time step. -/
def pZero : Params :=
  { NUM_YEARS := 2, TIME_STEP := 0, START_DATE := 2015,
    PROB_NEW_PARTNER := 22 / 1000, FORCE_INFECTION := 1 / 10 }

/-- Concrete parameters for a one-step run. -/
def pOnes : Params :=
  { NUM_YEARS := 1, TIME_STEP := 1, START_DATE := 2015,
    PROB_NEW_PARTNER := 22 / 1000, FORCE_INFECTION := 1 / 10 }

/-- Concrete parameters with zero force of infection. -/
def pNoForce : Params :=
  { NUM_YEARS := 1, TIME_STEP := 1, START_DATE := 2015,
    PROB_NEW_PARTNER := 22 / 1000, FORCE_INFECTION := 0 }

lemma infection_event_hiv (a : Agent) (pv pn fi : ℚ) (rng : RNG) :
    (infection_event a pv pn fi rng).1.hiv = a.hiv ∨
      (a.hiv = 0 ∧ (infection_event a pv pn fi rng).1.hiv = 1) := by
  unfold infection_event
  by_cases h : a.hiv = 0
  · by_cases h2 : rng.reals rng.r < fi * pn * pv
    · refine Or.inr ⟨h, ?_⟩
      simp [h, RNG.random, h2]
    · refine Or.inl ?_
      simp [h, RNG.random, h2]
  · simp [h]

lemma age_event_hiv (a : Agent) (t : ℚ) : (age_event a t).hiv = a.hiv := rfl

lemma applyEv_hiv (a : Agent) (rng : RNG) (e : Ev) :
    (applyEv a rng e).1.hiv = a.hiv ∨
      (a.hiv = 0 ∧ (applyEv a rng e).1.hiv = 1) := by
  cases e with
  | infection pv pn fi => exact infection_event_hiv a pv pn fi rng
  | age t => exact Or.inl rfl

lemma applyEvs_cons (a : Agent) (rng : RNG) (e : Ev) (es : List Ev) :
    applyEvs a rng (e :: es) =
      applyEvs (applyEv a rng e).1 (applyEv a rng e).2 es := rfl

lemma applyEvs_hiv_range (evs : List Ev) :
    ∀ (a : Agent) (rng : RNG), 0 ≤ a.hiv → a.hiv ≤ 5 →
      0 ≤ (applyEvs a rng evs).1.hiv ∧ (applyEvs a rng evs).1.hiv ≤ 5 := by
  induction evs with
  | nil => exact fun a rng h0 h5 => ⟨h0, h5⟩
  | cons e es ih =>
    intro a rng h0 h5
    rw [applyEvs_cons]
    have h := applyEv_hiv a rng e
    rcases h with h | ⟨_, h⟩
    · exact ih _ _ (h ▸ h0) (h ▸ h5)
    · exact ih _ _ (by rw [h]; norm_num) (by rw [h]; norm_num)

lemma Agent.init_hiv_range (rng : RNG) (hg : 1 ≤ rng.geoms rng.g) :
    0 ≤ (Agent.init rng).1.hiv ∧ (Agent.init rng).1.hiv ≤ 5 := by
  unfold Agent.init RNG.randint RNG.uniform RNG.geometric
  constructor
  · simp only [le_min_iff]
    refine ⟨?_, by norm_num⟩
    have : (1 : ℤ) ≤ (rng.geoms rng.g : ℤ) := by exact_mod_cast hg
    omega
  · exact min_le_right _ _

lemma constRng_wf : RNG.wf constRng := by
  refine ⟨fun k => ⟨le_refl 0, by norm_num [constRng]⟩, fun k => le_refl 1⟩

/-- C1: for every agent, at construction and after any sequence of
`infection_event` and `age_event` calls, the infection stage lies in `[0, 5]`:
construction sets `min(geometric - 1, 5)` with the geometric draw at least 1,
and the events at most move stage 0 to 1. -/
theorem stage_bound_reachable (rng rng2 : RNG) (hg : 1 ≤ rng.geoms rng.g)
    (evs : List Ev) :
    0 ≤ (applyEvs (Agent.init rng).1 rng2 evs).1.hiv ∧
      (applyEvs (Agent.init rng).1 rng2 evs).1.hiv ≤ 5 := by
  have h := Agent.init_hiv_range rng hg
  exact applyEvs_hiv_range evs _ rng2 h.1 h.2

/-- Witness for C1 at a concrete random source and event list. -/
theorem stage_bound_reachable_witness :
    0 ≤ (applyEvs (Agent.init constRng).1 constRng
          [Ev.infection 1 1 1, Ev.age 1]).1.hiv ∧
      (applyEvs (Agent.init constRng).1 constRng
          [Ev.infection 1 1 1, Ev.age 1]).1.hiv ≤ 5 :=
  stage_bound_reachable constRng constRng (le_refl 1) [Ev.infection 1 1 1, Ev.age 1]

lemma set_get_self : ∀ (l : List α) (i : ℕ) (h : i < l.length),
    l.set i (l.get ⟨i, h⟩) = l
  | _ :: _, 0, _ => rfl
  | a :: t, i + 1, h =>
    congrArg (a :: ·) (set_get_self t i (Nat.lt_of_succ_lt_succ h))

lemma cons_set_perm : ∀ (t : List α) (k : ℕ) (hk : k < t.length) (a : α),
    (t.get ⟨k, hk⟩ :: t.set k a).Perm (a :: t)
  | b :: t', 0, _, a => List.Perm.swap a b t'
  | b :: t', k + 1, hk, a =>
    ((List.Perm.swap b (t'.get ⟨k, Nat.lt_of_succ_lt_succ hk⟩)
        (t'.set k a)).trans
      ((cons_set_perm t' k (Nat.lt_of_succ_lt_succ hk) a).cons b)).trans
      (List.Perm.swap a b t')

lemma swap_set_perm : ∀ (l : List α) (i j : ℕ) (hi : i < l.length)
    (hj : j < l.length),
    ((l.set i (l.get ⟨j, hj⟩)).set j (l.get ⟨i, hi⟩)).Perm l
  | _ :: _, 0, 0, _, _ => List.Perm.refl _
  | a :: t, 0, j + 1, _, hj =>
    cons_set_perm t j (Nat.lt_of_succ_lt_succ hj) a
  | a :: t, i + 1, 0, hi, _ =>
    cons_set_perm t i (Nat.lt_of_succ_lt_succ hi) a
  | a :: t, i + 1, j + 1, hi, hj =>
    (swap_set_perm t i j (Nat.lt_of_succ_lt_succ hi)
      (Nat.lt_of_succ_lt_succ hj)).cons a

lemma lswap_perm (l : List α) (i j : ℕ) : (lswap l i j).Perm l := by
  unfold lswap
  by_cases hi : i < l.length
  · by_cases hj : j < l.length
    · simp only [hi, hj, dif_pos]
      exact swap_set_perm l i j hi hj
    · simp [hi, hj]
  · simp [hi]

lemma shuffleFrom_succ (l : List α) (rng : RNG) (n : ℕ) :
    shuffleFrom l rng (n + 1) =
      shuffleFrom (lswap l (n + 1) (RNG.randbelow (n + 2) rng).1)
        (RNG.randbelow (n + 2) rng).2 n := rfl

lemma shuffleFrom_perm : ∀ (n : ℕ) (l : List α) (rng : RNG),
    ((shuffleFrom l rng n).1).Perm l
  | 0, _, _ => List.Perm.refl _
  | n + 1, l, rng => by
    rw [shuffleFrom_succ]
    exact (shuffleFrom_perm n _ _).trans (lswap_perm l (n + 1) _)

lemma shuffleList_perm (l : List α) (rng : RNG) :
    ((shuffleList l rng).1).Perm l :=
  shuffleFrom_perm (l.length - 1) l rng

lemma shuffleList_length (l : List α) (rng : RNG) :
    (shuffleList l rng).1.length = l.length :=
  (shuffleList_perm l rng).length_eq

lemma shuffleList_infectedCount (l : List Agent) (rng : RNG) :
    infectedCount (shuffleList l rng).1 = infectedCount l :=
  (shuffleList_perm l rng).countP_eq _

lemma infection_event_cases (a : Agent) (pv pn fi : ℚ) (rng : RNG) :
    (a.hiv ≠ 0 ∧ infection_event a pv pn fi rng = (a, rng)) ∨
      (a.hiv = 0 ∧
        (infection_event a pv pn fi rng = (a, { rng with r := rng.r + 1 }) ∨
          infection_event a pv pn fi rng =
            ({ a with hiv := 1 }, { rng with r := rng.r + 1 }))) := by
  unfold infection_event
  by_cases h : a.hiv = 0
  · by_cases h2 : rng.reals rng.r < fi * pn * pv
    · exact Or.inr ⟨h, Or.inr (by simp [h, RNG.random, h2])⟩
    · exact Or.inr ⟨h, Or.inl (by simp [h, RNG.random, h2])⟩
  · exact Or.inl ⟨h, by simp [h]⟩

lemma infection_event_age (a : Agent) (pv pn fi : ℚ) (rng : RNG) :
    (infection_event a pv pn fi rng).1.age = a.age := by
  rcases infection_event_cases a pv pn fi rng with ⟨_, h⟩ | ⟨_, h | h⟩ <;>
    rw [h]

lemma infection_event_rng (a : Agent) (pv pn fi : ℚ) (rng : RNG) :
    (infection_event a pv pn fi rng).2 =
      if a.hiv = 0 then { rng with r := rng.r + 1 } else rng := by
  rcases infection_event_cases a pv pn fi rng with ⟨h0, h⟩ | ⟨h0, h | h⟩ <;>
    rw [h] <;> simp [h0]

lemma stepAgents_cons (pv pn fi ts : ℚ) (a : Agent) (l : List Agent)
    (rng : RNG) :
    stepAgents pv pn fi ts (a :: l) rng =
      (age_event (infection_event a pv pn fi rng).1 ts ::
          (stepAgents pv pn fi ts l (infection_event a pv pn fi rng).2).1,
        (stepAgents pv pn fi ts l (infection_event a pv pn fi rng).2).2) := rfl

lemma stepAgents_map_age (pv pn fi ts : ℚ) :
    ∀ (l : List Agent) (rng : RNG),
      (stepAgents pv pn fi ts l rng).1.map Agent.age =
        l.map (fun x => x.age + ts)
  | [], _ => rfl
  | a :: l, rng => by
    rw [stepAgents_cons]
    simp only [List.map_cons]
    refine congrArg₂ (· :: ·) ?_ (stepAgents_map_age pv pn fi ts l _)
    show (infection_event a pv pn fi rng).1.age + ts = a.age + ts
    rw [infection_event_age]

lemma stepAgents_length (pv pn fi ts : ℚ) (l : List Agent) (rng : RNG) :
    (stepAgents pv pn fi ts l rng).1.length = l.length := by
  have h := congrArg List.length (stepAgents_map_age pv pn fi ts l rng)
  simpa using h

lemma stepAgents_infected_mono (pv pn fi ts : ℚ) :
    ∀ (l : List Agent) (rng : RNG),
      infectedCount l ≤ infectedCount (stepAgents pv pn fi ts l rng).1
  | [], _ => le_refl 0
  | a :: l, rng => by
    rw [stepAgents_cons]
    unfold infectedCount
    rw [List.countP_cons, List.countP_cons]
    have hrec := stepAgents_infected_mono pv pn fi ts l
      (infection_event a pv pn fi rng).2
    rcases infection_event_hiv a pv pn fi rng with h | ⟨h0, h⟩
    · have : (age_event (infection_event a pv pn fi rng).1 ts).hiv = a.hiv := by
        rw [age_event_hiv, h]
      rw [this]
      exact Nat.add_le_add (hrec) (le_refl _)
    · have : (age_event (infection_event a pv pn fi rng).1 ts).hiv = 1 := by
        rw [age_event_hiv, h]
      rw [this, h0]
      simp only [decide_eq_true_eq]
      norm_num
      exact Nat.le_trans (hrec) (Nat.le_succ _)

lemma stepAgents_rng (pv pn fi ts : ℚ) :
    ∀ (l : List Agent) (rng : RNG),
      (stepAgents pv pn fi ts l rng).2 =
        { rng with r := rng.r + l.countP (fun x => decide (x.hiv = 0)) }
  | [], rng => by simp [stepAgents]
  | a :: l, rng => by
    rw [stepAgents_cons, List.countP_cons]
    rw [stepAgents_rng pv pn fi ts l (infection_event a pv pn fi rng).2]
    rw [infection_event_rng]
    by_cases h : a.hiv = 0
    · simp only [h, if_true, decide_eq_true_eq]
      refine RNG.ext rfl rfl rfl ?_ rfl rfl
      simp only []
      omega
    · simp only [h, if_false, decide_eq_true_eq]
      refine RNG.ext rfl rfl rfl ?_ rfl rfl
      simp [h]

lemma stepAgentsGen_cons (pn fi ts : ℚ) (pvs : List ℚ) (a : Agent)
    (l : List Agent) (rng : RNG) :
    stepAgentsGen pn fi ts pvs (a :: l) rng =
      (age_event (infection_event a (pvs.headD 0) pn fi rng).1 ts ::
          (stepAgentsGen pn fi ts pvs.tail l
            (infection_event a (pvs.headD 0) pn fi rng).2).1,
        (stepAgentsGen pn fi ts pvs.tail l
          (infection_event a (pvs.headD 0) pn fi rng).2).2) := rfl

lemma stepAgents_eq_gen (pn fi ts : ℚ) :
    ∀ (l : List Agent) (rng : RNG) (pv : ℚ),
      stepAgentsGen pn fi ts (List.replicate l.length pv) l rng =
        stepAgents pv pn fi ts l rng
  | [], _, _ => rfl
  | a :: l, rng, pv => by
    rw [stepAgents_cons]
    show stepAgentsGen pn fi ts (List.replicate (l.length + 1) pv)
        (a :: l) rng = _
    rw [List.replicate_succ, stepAgentsGen_cons]
    simp only [List.headD_cons, List.tail_cons]
    rw [stepAgents_eq_gen pn fi ts l _ pv]

lemma stepCore_eq (p : Params) (agents : List Agent) (rng : RNG) :
    stepCore p agents rng =
      stepAgents (prevalenceOf (shuffleList agents rng).1) p.PROB_NEW_PARTNER
        p.FORCE_INFECTION p.TIME_STEP (shuffleList agents rng).1
        (shuffleList agents rng).2 := rfl

lemma stepCore_length (p : Params) (agents : List Agent) (rng : RNG) :
    (stepCore p agents rng).1.length = agents.length := by
  rw [stepCore_eq, stepAgents_length, shuffleList_length]

lemma stepCore_infected_mono (p : Params) (agents : List Agent) (rng : RNG) :
    infectedCount agents ≤ infectedCount (stepCore p agents rng).1 := by
  rw [stepCore_eq]
  calc infectedCount agents = infectedCount (shuffleList agents rng).1 :=
        (shuffleList_infectedCount agents rng).symm
    _ ≤ _ := stepAgents_infected_mono _ _ _ _ _ _

lemma stepCore_map_age (p : Params) (agents : List Agent) (rng : RNG) :
    (stepCore p agents rng).1.map Agent.age =
      (shuffleList agents rng).1.map (fun x => x.age + p.TIME_STEP) := by
  rw [stepCore_eq, stepAgents_map_age]

lemma simStep_eq (p : Params) (i : ℕ) (agents : List Agent) (rng : RNG)
    (h : agents ≠ []) :
    simStep p i agents rng =
      Except.ok
        ({ date := p.START_DATE + (i : ℚ) / YEAR,
           numInfected := infectedCount (stepCore p agents rng).1,
           prevalence := prevalenceOf (stepCore p agents rng).1 },
         (stepCore p agents rng).1, (stepCore p agents rng).2) := by
  have hlen : agents.length ≠ 0 := by
    simpa [List.length_eq_zero] using h
  have hshlen : (shuffleList agents rng).1.length ≠ 0 := by
    rw [shuffleList_length]; exact hlen
  have hsteplen : (stepCore p agents rng).1.length ≠ 0 := by
    rw [stepCore_length]; exact hlen
  unfold simStep
  rcases hsh : shuffleList agents rng with ⟨sh, rng1⟩
  rw [hsh] at hshlen
  simp only []
  rw [if_neg hshlen]
  have hcore : stepCore p agents rng =
      stepAgents (prevalenceOf sh) p.PROB_NEW_PARTNER p.FORCE_INFECTION
        p.TIME_STEP sh rng1 := by
    rw [stepCore_eq, hsh]
  rcases hst : stepAgents (prevalenceOf sh) p.PROB_NEW_PARTNER
      p.FORCE_INFECTION p.TIME_STEP sh rng1 with ⟨A2, R2⟩
  rw [hst] at hcore
  rw [hcore] at hsteplen ⊢
  simp only []
  unfold report
  rw [if_neg hsteplen]

/-- C2: in each simulation step the prevalence is computed exactly once, on
the shuffled population before any mutation; the per-agent loop is the
instance of the generalised loop that feeds every agent that one frozen value,
and the emitted report carries the prevalence recomputed on the post-mutation
population. -/
theorem step_frozen_prevalence (p : Params) (i : ℕ) (agents : List Agent)
    (rng : RNG) (h : agents ≠ []) :
    simStep p i agents rng =
      Except.ok
        ({ date := p.START_DATE + (i : ℚ) / YEAR,
           numInfected := infectedCount (stepCore p agents rng).1,
           prevalence := prevalenceOf (stepCore p agents rng).1 },
         (stepCore p agents rng).1, (stepCore p agents rng).2) ∧
      stepCore p agents rng =
        stepAgentsGen p.PROB_NEW_PARTNER p.FORCE_INFECTION p.TIME_STEP
          (List.replicate (shuffleList agents rng).1.length
            (prevalenceOf (shuffleList agents rng).1))
          (shuffleList agents rng).1 (shuffleList agents rng).2 := by
  refine ⟨simStep_eq p i agents rng h, ?_⟩
  rw [stepCore_eq, stepAgents_eq_gen]

/-- Witness for C2 at a concrete population, parameters and random source. -/
theorem step_frozen_prevalence_witness :
    simStep pOnes 0 [agent1] constRng =
      Except.ok
        ({ date := pOnes.START_DATE + ((0 : ℕ) : ℚ) / YEAR,
           numInfected := infectedCount (stepCore pOnes [agent1] constRng).1,
           prevalence := prevalenceOf (stepCore pOnes [agent1] constRng).1 },
         (stepCore pOnes [agent1] constRng).1,
         (stepCore pOnes [agent1] constRng).2) ∧
      stepCore pOnes [agent1] constRng =
        stepAgentsGen pOnes.PROB_NEW_PARTNER pOnes.FORCE_INFECTION
          pOnes.TIME_STEP
          (List.replicate (shuffleList [agent1] constRng).1.length
            (prevalenceOf (shuffleList [agent1] constRng).1))
          (shuffleList [agent1] constRng).1
          (shuffleList [agent1] constRng).2 :=
  step_frozen_prevalence pOnes 0 [agent1] constRng (List.cons_ne_nil agent1 [])

lemma pyInt_toNat (q : ℚ) : (pyInt q).toNat = ⌊q⌋.toNat := by
  unfold pyInt
  by_cases h : 0 ≤ q
  · rw [if_pos h]
  · rw [if_neg h]
    push_neg at h
    have h1 : ⌊q⌋ ≤ 0 := Int.floor_nonpos h.le
    have h2 : 0 ≤ ⌊-q⌋ := Int.floor_nonneg.mpr (by linarith)
    omega

lemma pyInt_nonpos (q : ℚ) (h : q ≤ 0) : pyInt q ≤ 0 := by
  unfold pyInt
  by_cases h0 : 0 ≤ q
  · rw [if_pos h0]
    have : q = 0 := le_antisymm h h0
    simp [this]
  · rw [if_neg h0]
    push_neg at h0
    have : (0 : ℤ) ≤ ⌊-q⌋ := Int.floor_nonneg.mpr (by linarith)
    omega

lemma simLoop_zero (p : Params) (i : ℕ) (agents : List Agent) (rng : RNG) :
    simLoop p 0 i agents rng = Except.ok ([], agents, rng) := rfl

lemma simLoop_succ (p : Params) (k i : ℕ) (agents : List Agent) (rng : RNG) :
    simLoop p (k + 1) i agents rng =
      match simStep p i agents rng with
      | Except.error e => Except.error e
      | Except.ok (rep, agents2, rng2) =>
        match simLoop p k (i + 1) agents2 rng2 with
        | Except.error e => Except.error e
        | Except.ok (reps, agents3, rng3) =>
          Except.ok (rep :: reps, agents3, rng3) := rfl

lemma simStep_nil (p : Params) (i : ℕ) (rng : RNG) :
    simStep p i ([] : List Agent) rng = Except.error PyErr.zeroDivision := rfl

lemma stepCore_ne_nil (p : Params) (agents : List Agent) (rng : RNG)
    (h : agents ≠ []) : (stepCore p agents rng).1 ≠ [] := by
  intro hc
  have hl := stepCore_length p agents rng
  rw [hc] at hl
  exact h (List.length_eq_zero.mp hl.symm)

lemma simLoop_ok (p : Params) :
    ∀ (k i : ℕ) (agents : List Agent) (rng : RNG), agents ≠ [] →
      ∃ reps a2 r2, simLoop p k i agents rng = Except.ok (reps, a2, r2) ∧
        reps.length = k ∧ a2.length = agents.length ∧
        ∀ j, j < k → (reps.getD j defaultReport).date =
          p.START_DATE + ((i + j : ℕ) : ℚ) / YEAR
  | 0, i, agents, rng, _ =>
    ⟨[], agents, rng, rfl, rfl, rfl, fun j hj => absurd hj (Nat.not_lt_zero j)⟩
  | k + 1, i, agents, rng, h => by
    have hstep := simStep_eq p i agents rng h
    obtain ⟨reps, a2, r2, hloop, hlen, halen, hdates⟩ :=
      simLoop_ok p k (i + 1) (stepCore p agents rng).1
        (stepCore p agents rng).2 (stepCore_ne_nil p agents rng h)
    refine ⟨Report.mk (p.START_DATE + (i : ℚ) / YEAR)
        (infectedCount (stepCore p agents rng).1)
        (prevalenceOf (stepCore p agents rng).1) :: reps,
      a2, r2, ?_, ?_, ?_, ?_⟩
    · simp only [simLoop_succ, hstep, hloop]
    · simp [hlen]
    · rw [halen, stepCore_length]
    · intro j hj
      cases j with
      | zero => simp
      | succ m =>
        have hm := hdates m (Nat.lt_of_succ_lt_succ hj)
        show (reps.getD m defaultReport).date = _
        rw [hm]
        have : i + 1 + m = i + (m + 1) := by omega
        rw [this]

lemma simLoop_mono (p : Params) :
    ∀ (k i : ℕ) (agents : List Agent) (rng : RNG) (reps : List Report)
      (a2 : List Agent) (r2 : RNG),
      simLoop p k i agents rng = Except.ok (reps, a2, r2) →
      infectedCount agents ≤ infectedCount a2 ∧
        (∀ r ∈ reps, infectedCount agents ≤ r.numInfected) ∧
        List.Chain' (fun x y => x.numInfected ≤ y.numInfected) reps
  | 0, i, agents, rng, reps, a2, r2 => by
    intro hloop
    rw [simLoop_zero] at hloop
    simp only [Except.ok.injEq, Prod.mk.injEq] at hloop
    obtain ⟨h1, h2, _⟩ := hloop
    subst h1; subst h2
    exact ⟨le_refl _, fun r hr => absurd hr (List.not_mem_nil r),
      List.chain'_nil⟩
  | k + 1, i, agents, rng, reps, a2, r2 => by
    intro hloop
    by_cases hag : agents = []
    · rw [simLoop_succ, hag, simStep_nil] at hloop
      exact absurd hloop (by simp)
    · have hstep := simStep_eq p i agents rng hag
      simp only [simLoop_succ, hstep] at hloop
      rcases hrec : simLoop p k (i + 1) (stepCore p agents rng).1
          (stepCore p agents rng).2 with e | ⟨reps2, a3, r3⟩
      · rw [hrec] at hloop
        exact absurd hloop (by simp)
      · rw [hrec] at hloop
        simp only [Except.ok.injEq, Prod.mk.injEq] at hloop
        obtain ⟨hh, ha, _⟩ := hloop
        have ih := simLoop_mono p k (i + 1) (stepCore p agents rng).1
          (stepCore p agents rng).2 reps2 a3 r3 hrec
        have hmono := stepCore_infected_mono p agents rng
        subst hh
        subst ha
        refine ⟨le_trans hmono ih.1, ?_, ?_⟩
        · intro r hr
          rcases List.mem_cons.mp hr with hr | hr
          · rw [hr]
            exact hmono
          · exact le_trans hmono (ih.2.1 r hr)
        · refine List.chain'_cons'.mpr ⟨?_, ih.2.2⟩
          intro b hb
          exact le_trans (le_refl _)
            (ih.2.1 b (List.mem_of_mem_head? hb))

lemma applyEvs_hiv_pos (evs : List Ev) :
    ∀ (a : Agent) (g : RNG), 0 < a.hiv → 0 < (applyEvs a g evs).1.hiv := by
  induction evs with
  | nil => exact fun a g hpos => hpos
  | cons e es ih =>
    intro a g hpos
    rw [applyEvs_cons]
    rcases applyEv_hiv a g e with hh | ⟨h0, _⟩
    · exact ih _ _ (hh ▸ hpos)
    · rw [h0] at hpos
      exact absurd hpos (lt_irrefl 0)

/-- C4: with a defined number of iterations (nonzero time step), `simulate`
executes exactly `floor(NUM_YEARS / TIME_STEP)` steps, emitting one report per
step whose `i`-th date is `START_DATE + i / 365.25`; a non-positive iteration
count yields zero steps, no reports and no error. -/
theorem step_count_and_dates (agents : List Agent) (p : Params) (rng : RNG)
    (ht : p.TIME_STEP ≠ 0)
    (h : agents ≠ [] ∨ ⌊p.NUM_YEARS / p.TIME_STEP⌋ ≤ 0) :
    exceptIsOk (simulate agents p rng) = true ∧
      (simReports agents p rng).length =
        (⌊p.NUM_YEARS / p.TIME_STEP⌋).toNat ∧
      (∀ j, j < (simReports agents p rng).length →
        ((simReports agents p rng).getD j defaultReport).date =
          p.START_DATE + (j : ℚ) / YEAR) ∧
      (⌊p.NUM_YEARS / p.TIME_STEP⌋ ≤ 0 → simReports agents p rng = []) := by
  by_cases hfl : ⌊p.NUM_YEARS / p.TIME_STEP⌋ ≤ 0
  · have hto : (pyInt (p.NUM_YEARS / p.TIME_STEP)).toNat = 0 := by
      rw [pyInt_toNat]
      omega
    have hsim : simulate agents p rng = Except.ok ([], agents, rng) := by
      unfold simulate
      rw [if_neg ht, hto, simLoop_zero]
    have hreps : simReports agents p rng = [] := by
      simp [simReports, hsim]
    refine ⟨by simp [exceptIsOk, hsim], ?_, ?_, fun _ => hreps⟩
    · rw [hreps]
      simp
      omega
    · intro j hj
      rw [hreps] at hj
      exact absurd hj (by simp)
  · push_neg at hfl
    have hagents : agents ≠ [] := by
      rcases h with h | h
      · exact h
      · omega
    obtain ⟨reps, a2, r2, hloop, hlen, _, hdates⟩ :=
      simLoop_ok p (pyInt (p.NUM_YEARS / p.TIME_STEP)).toNat 0 agents rng
        hagents
    have hsim : simulate agents p rng = Except.ok (reps, a2, r2) := by
      unfold simulate
      rw [if_neg ht]
      exact hloop
    have hreps : simReports agents p rng = reps := by
      simp [simReports, hsim]
    refine ⟨by simp [exceptIsOk, hsim], ?_, ?_, ?_⟩
    · rw [hreps, hlen, pyInt_toNat]
    · intro j hj
      rw [hreps] at hj ⊢
      have hd := hdates j (by rw [← hlen]; exact hj)
      simpa using hd
    · intro hcontra
      omega

/-- Witness for C4 at a concrete one-step configuration. -/
theorem step_count_and_dates_witness :
    exceptIsOk (simulate [agent1] pOnes constRng) = true ∧
      (simReports [agent1] pOnes constRng).length =
        (⌊pOnes.NUM_YEARS / pOnes.TIME_STEP⌋).toNat ∧
      (∀ j, j < (simReports [agent1] pOnes constRng).length →
        ((simReports [agent1] pOnes constRng).getD j defaultReport).date =
          pOnes.START_DATE + (j : ℚ) / YEAR) ∧
      (⌊pOnes.NUM_YEARS / pOnes.TIME_STEP⌋ ≤ 0 →
        simReports [agent1] pOnes constRng = []) :=
  step_count_and_dates [agent1] pOnes constRng (by norm_num [pOnes])
    (Or.inl (List.cons_ne_nil agent1 []))

/-- C5: infection is one-way — an agent with positive stage keeps a positive
stage under any further events — and consequently the reported infected count
never decreases across the steps of a run and the final infected count is at
least the initial one. -/
theorem one_way_infection (agents : List Agent) (p : Params) (rng : RNG)
    (h : agents ≠ []) (ht : p.TIME_STEP ≠ 0) :
    (∀ (evs : List Ev) (a : Agent) (g : RNG), 0 < a.hiv →
        0 < (applyEvs a g evs).1.hiv) ∧
      exceptIsOk (simulate agents p rng) = true ∧
      List.Chain' (fun x y => x.numInfected ≤ y.numInfected)
        (simReports agents p rng) ∧
      infectedCount agents ≤ infectedCount (simFinal agents p rng) ∧
      ∀ r ∈ simReports agents p rng, infectedCount agents ≤ r.numInfected := by
  obtain ⟨reps, a2, r2, hloop, _, _, _⟩ :=
    simLoop_ok p (pyInt (p.NUM_YEARS / p.TIME_STEP)).toNat 0 agents rng h
  have hsim : simulate agents p rng = Except.ok (reps, a2, r2) := by
    unfold simulate
    rw [if_neg ht]
    exact hloop
  have hmono := simLoop_mono p (pyInt (p.NUM_YEARS / p.TIME_STEP)).toNat 0
    agents rng reps a2 r2 hloop
  have hreps : simReports agents p rng = reps := by
    simp [simReports, hsim]
  have hfin : simFinal agents p rng = a2 := by
    simp [simFinal, hsim]
  refine ⟨fun evs a g => applyEvs_hiv_pos evs a g, by simp [exceptIsOk, hsim],
    ?_, ?_, ?_⟩
  · rw [hreps]
    exact hmono.2.2
  · rw [hfin]
    exact hmono.1
  · rw [hreps]
    exact hmono.2.1

/-- Witness for C5 at a concrete one-step configuration. -/
theorem one_way_infection_witness :
    (∀ (evs : List Ev) (a : Agent) (g : RNG), 0 < a.hiv →
        0 < (applyEvs a g evs).1.hiv) ∧
      exceptIsOk (simulate [agent1] pOnes constRng) = true ∧
      List.Chain' (fun x y => x.numInfected ≤ y.numInfected)
        (simReports [agent1] pOnes constRng) ∧
      infectedCount [agent1] ≤
        infectedCount (simFinal [agent1] pOnes constRng) ∧
      ∀ r ∈ simReports [agent1] pOnes constRng,
        infectedCount [agent1] ≤ r.numInfected :=
  one_way_infection [agent1] pOnes constRng (List.cons_ne_nil agent1 [])
    (by norm_num [pOnes])

/-- C9: within a step every agent's age advances by exactly `TIME_STEP`:
positionwise along the shuffled iteration order, and as a multiset of ages
relative to the pre-step population. -/
theorem age_advances_per_step (p : Params) (i : ℕ) (agents : List Agent)
    (rng : RNG) (h : agents ≠ []) :
    exceptIsOk (simStep p i agents rng) = true ∧
      (stepFinal p i agents rng).map Agent.age =
        (shuffleList agents rng).1.map (fun x => x.age + p.TIME_STEP) ∧
      ((stepFinal p i agents rng).map Agent.age : Multiset ℚ) =
        (agents.map (fun x => x.age + p.TIME_STEP) : Multiset ℚ) := by
  have hstep := simStep_eq p i agents rng h
  have hfin : stepFinal p i agents rng = (stepCore p agents rng).1 := by
    simp [stepFinal, hstep]
  refine ⟨by simp [exceptIsOk, hstep], ?_, ?_⟩
  · rw [hfin]
    exact stepCore_map_age p agents rng
  · rw [hfin, stepCore_map_age]
    exact Multiset.coe_eq_coe.mpr
      ((shuffleList_perm agents rng).map (fun x => x.age + p.TIME_STEP))

/-- Witness for C9 at a concrete population and parameters. -/
theorem age_advances_per_step_witness :
    exceptIsOk (simStep pOnes 0 [agent1] constRng) = true ∧
      (stepFinal pOnes 0 [agent1] constRng).map Agent.age =
        (shuffleList [agent1] constRng).1.map
          (fun x => x.age + pOnes.TIME_STEP) ∧
      ((stepFinal pOnes 0 [agent1] constRng).map Agent.age : Multiset ℚ) =
        ([agent1].map (fun x => x.age + pOnes.TIME_STEP) : Multiset ℚ) :=
  age_advances_per_step pOnes 0 [agent1] constRng (List.cons_ne_nil agent1 [])

/-- C10: for an already-infected agent `infection_event` is a complete no-op,
returning the agent and the random state unchanged, and the per-agent loop of
a step consumes exactly one uniform draw per stage-0 agent it iterates. -/
theorem infection_event_frame (a : Agent) (pv pn fi ts : ℚ) (rng : RNG)
    (h : a.hiv ≠ 0) :
    infection_event a pv pn fi rng = (a, rng) ∧
      ∀ (l : List Agent) (g : RNG),
        (stepAgents pv pn fi ts l g).2 =
          { g with r := g.r + l.countP (fun x => decide (x.hiv = 0)) } := by
  constructor
  · rcases infection_event_cases a pv pn fi rng with ⟨_, hE⟩ | ⟨h0, _⟩
    · exact hE
    · exact absurd h0 h
  · exact fun l g => stepAgents_rng pv pn fi ts l g

/-- Witness for C10 at a concrete infected agent. -/
theorem infection_event_frame_witness :
    infection_event agent1 1 (22 / 1000) (1 / 10) constRng =
        (agent1, constRng) ∧
      ∀ (l : List Agent) (g : RNG),
        (stepAgents 1 (22 / 1000) (1 / 10) 1 l g).2 =
          { g with r := g.r + l.countP (fun x => decide (x.hiv = 0)) } :=
  infection_event_frame agent1 1 (22 / 1000) (1 / 10) 1 constRng (by decide)

lemma shuffleFrom_reals : ∀ (n : ℕ) (l : List α) (rng : RNG),
    ((shuffleFrom l rng n).2).reals = rng.reals
  | 0, _, _ => rfl
  | n + 1, l, rng => by
    rw [shuffleFrom_succ]
    exact shuffleFrom_reals n _ _

lemma shuffleList_reals (l : List α) (rng : RNG) :
    ((shuffleList l rng).2).reals = rng.reals :=
  shuffleFrom_reals (l.length - 1) l rng

lemma stepCore_reals (p : Params) (agents : List Agent) (rng : RNG) :
    (stepCore p agents rng).2.reals = rng.reals := by
  rw [stepCore_eq, stepAgents_rng]
  exact shuffleList_reals agents rng

lemma stepAgents_map_hiv_zero_force (pv pn ts : ℚ) :
    ∀ (l : List Agent) (rng : RNG), (∀ k, 0 ≤ rng.reals k) →
      (stepAgents pv pn 0 ts l rng).1.map Agent.hiv = l.map Agent.hiv
  | [], _, _ => rfl
  | a :: l, rng, hw => by
    rw [stepAgents_cons]
    have hie : (infection_event a pv pn 0 rng).1 = a := by
      unfold infection_event
      by_cases h : a.hiv = 0
      · have hno : ¬ rng.reals rng.r < 0 := not_lt.mpr (hw rng.r)
        simp [h, RNG.random, hno]
      · simp [h]
    have hwr : ∀ k, 0 ≤ (infection_event a pv pn 0 rng).2.reals k := by
      rw [infection_event_rng]
      by_cases h : a.hiv = 0
      · rw [if_pos h]
        exact hw
      · rw [if_neg h]
        exact hw
    simp only [List.map_cons]
    refine congrArg₂ (· :: ·) ?_
      (stepAgents_map_hiv_zero_force pv pn ts l _ hwr)
    rw [age_event_hiv, hie]

lemma infectedCount_eq_of_map_hiv {l1 l2 : List Agent}
    (h : l1.map Agent.hiv = l2.map Agent.hiv) :
    infectedCount l1 = infectedCount l2 := by
  unfold infectedCount
  have key : ∀ l : List Agent,
      List.countP (fun a => decide (0 < a.hiv)) l =
        (l.map Agent.hiv).countP (fun z => decide (0 < z)) :=
    fun l => (List.countP_map (fun z => decide (0 < z)) Agent.hiv l).symm
  rw [key, key, h]

lemma stepCore_map_hiv_zero_force (p : Params) (agents : List Agent)
    (rng : RNG) (hf : p.FORCE_INFECTION = 0) (hw : ∀ k, 0 ≤ rng.reals k) :
    (stepCore p agents rng).1.map Agent.hiv =
      (shuffleList agents rng).1.map Agent.hiv := by
  rw [stepCore_eq, hf]
  refine stepAgents_map_hiv_zero_force _ _ _ _ _ ?_
  rw [shuffleList_reals]
  exact hw

lemma simLoop_zero_force (p : Params) (hf : p.FORCE_INFECTION = 0) :
    ∀ (k i : ℕ) (agents : List Agent) (rng : RNG) (reps : List Report)
      (a2 : List Agent) (r2 : RNG), (∀ j, 0 ≤ rng.reals j) →
      simLoop p k i agents rng = Except.ok (reps, a2, r2) →
      ((a2.map Agent.hiv : Multiset ℤ) = (agents.map Agent.hiv : Multiset ℤ) ∧
        infectedCount a2 = infectedCount agents ∧
        ∀ r ∈ reps, r.numInfected = infectedCount agents)
  | 0, i, agents, rng, reps, a2, r2 => by
    intro _ hloop
    rw [simLoop_zero] at hloop
    simp only [Except.ok.injEq, Prod.mk.injEq] at hloop
    obtain ⟨h1, h2, _⟩ := hloop
    subst h1; subst h2
    exact ⟨rfl, rfl, fun r hr => absurd hr (List.not_mem_nil r)⟩
  | k + 1, i, agents, rng, reps, a2, r2 => by
    intro hw hloop
    by_cases hag : agents = []
    · rw [simLoop_succ, hag, simStep_nil] at hloop
      exact absurd hloop (by simp)
    · have hstep := simStep_eq p i agents rng hag
      simp only [simLoop_succ, hstep] at hloop
      rcases hrec : simLoop p k (i + 1) (stepCore p agents rng).1
          (stepCore p agents rng).2 with e | ⟨reps2, a3, r3⟩
      · rw [hrec] at hloop
        exact absurd hloop (by simp)
      · rw [hrec] at hloop
        simp only [Except.ok.injEq, Prod.mk.injEq] at hloop
        obtain ⟨hh, ha, _⟩ := hloop
        have hw2 : ∀ j, 0 ≤ (stepCore p agents rng).2.reals j := by
          rw [stepCore_reals]
          exact hw
        have ih := simLoop_zero_force p hf k (i + 1) (stepCore p agents rng).1
          (stepCore p agents rng).2 reps2 a3 r3 hw2 hrec
        have hmap : (stepCore p agents rng).1.map Agent.hiv =
            (shuffleList agents rng).1.map Agent.hiv :=
          stepCore_map_hiv_zero_force p agents rng hf hw
        have hms : (((stepCore p agents rng).1.map Agent.hiv : List ℤ) :
            Multiset ℤ) = (agents.map Agent.hiv : Multiset ℤ) := by
          rw [hmap]
          exact Multiset.coe_eq_coe.mpr
            ((shuffleList_perm agents rng).map Agent.hiv)
        have hcount : infectedCount (stepCore p agents rng).1 =
            infectedCount agents := by
          rw [infectedCount_eq_of_map_hiv hmap]
          exact shuffleList_infectedCount agents rng
        subst hh
        subst ha
        refine ⟨ih.1.trans hms, ih.2.1.trans hcount, ?_⟩
        intro r hr
        rcases List.mem_cons.mp hr with hr | hr
        · rw [hr]
          exact hcount
        · exact (ih.2.2 r hr).trans hcount

/-- C8: with zero force of infection the computed risk is always zero, no
uniform draw in `[0, 1)` falls below it, no agent's stage changes (the
multiset of stages is preserved), and every report as well as the final
population carries exactly the initial infected count. -/
theorem zero_force_constant (agents : List Agent) (p : Params) (rng : RNG)
    (h : agents ≠ []) (ht : p.TIME_STEP ≠ 0) (hf : p.FORCE_INFECTION = 0)
    (hw : ∀ k, 0 ≤ rng.reals k) :
    exceptIsOk (simulate agents p rng) = true ∧
      infectedCount (simFinal agents p rng) = infectedCount agents ∧
      ((simFinal agents p rng).map Agent.hiv : Multiset ℤ) =
        (agents.map Agent.hiv : Multiset ℤ) ∧
      ∀ r ∈ simReports agents p rng, r.numInfected = infectedCount agents := by
  obtain ⟨reps, a2, r2, hloop, _, _, _⟩ :=
    simLoop_ok p (pyInt (p.NUM_YEARS / p.TIME_STEP)).toNat 0 agents rng h
  have hsim : simulate agents p rng = Except.ok (reps, a2, r2) := by
    unfold simulate
    rw [if_neg ht]
    exact hloop
  have hzf := simLoop_zero_force p hf
    (pyInt (p.NUM_YEARS / p.TIME_STEP)).toNat 0 agents rng reps a2 r2 hw hloop
  have hreps : simReports agents p rng = reps := by
    simp [simReports, hsim]
  have hfin : simFinal agents p rng = a2 := by
    simp [simFinal, hsim]
  refine ⟨by simp [exceptIsOk, hsim], ?_, ?_, ?_⟩
  · rw [hfin]
    exact hzf.2.1
  · rw [hfin]
    exact hzf.1
  · rw [hreps]
    exact hzf.2.2

/-- Witness for C8 at a concrete configuration with zero force of infection. -/
theorem zero_force_constant_witness :
    exceptIsOk (simulate [agent1] pNoForce constRng) = true ∧
      infectedCount (simFinal [agent1] pNoForce constRng) =
        infectedCount [agent1] ∧
      ((simFinal [agent1] pNoForce constRng).map Agent.hiv : Multiset ℤ) =
        ([agent1].map Agent.hiv : Multiset ℤ) ∧
      ∀ r ∈ simReports [agent1] pNoForce constRng,
        r.numInfected = infectedCount [agent1] :=
  zero_force_constant [agent1] pNoForce constRng (List.cons_ne_nil agent1 [])
    (by norm_num [pNoForce]) rfl (fun k => le_refl 0)

/-- C3: the whole run is a deterministic function of the seed and the
configuration — two runs whose random sources come from the same seed produce
the same sequence of `(date, infected, prevalence)` report tuples. -/
theorem run_deterministic (seed numAgents : ℕ) (p : Params) (g1 g2 : RNG)
    (h1 : g1 = rngOfSeed seed) (h2 : g2 = rngOfSeed seed) :
    runReports numAgents p g1 = runReports numAgents p g2 := by
  subst h1
  subst h2
  rfl

/-- Witness for C3 at the module's own seed, 23. -/
theorem run_deterministic_witness :
    runReports 2 pOnes (rngOfSeed 23) = runReports 2 pOnes (rngOfSeed 23) :=
  run_deterministic 23 2 pOnes (rngOfSeed 23) (rngOfSeed 23) rfl rfl

/-- C6 (amended): there is no empty-population guard — constructing a
population of size 0 succeeds with no error, and the statistics
(`report`'s prevalence, `print_verbose_agent_info`'s average age) raise
`ZeroDivisionError` at query time on an empty population. -/
theorem no_empty_population_guard :
    (∀ rng : RNG, mkAgents 0 rng = ([], rng)) ∧
      (∀ d : ℚ, report d [] = Except.error PyErr.zeroDivision) ∧
      print_verbose_agent_info [] = Except.error PyErr.zeroDivision :=
  ⟨fun _ => rfl, fun _ => rfl, rfl⟩

/-- Counterexample to C6 as stated: at the concrete empty population the
statistics raise `ZeroDivisionError` rather than an explicit
"empty population" condition, and construction performs no guard. -/
theorem empty_population_guard_counterexample :
    mkAgents 0 constRng = ([], constRng) ∧
      report 2015 [] = Except.error PyErr.zeroDivision ∧
      report 2015 [] ≠ Except.error PyErr.emptyPopulation ∧
      print_verbose_agent_info [] = Except.error PyErr.zeroDivision := by
  refine ⟨rfl, rfl, ?_, rfl⟩
  intro hx
  have h2 : (Except.error PyErr.zeroDivision : Except PyErr Report) =
      Except.error PyErr.emptyPopulation := hx
  exact PyErr.noConfusion (Except.error.inj h2)

/-- C7 (amended): the code performs no time-step validation — a zero
`TIME_STEP` raises `ZeroDivisionError` at the `num_iterations` division before
the loop, while a negative `TIME_STEP` (with non-negative `NUM_YEARS`)
silently yields a zero-length run with no reports and no error. -/
theorem timestep_no_validation (p : Params) (agents : List Agent) (rng : RNG) :
    (p.TIME_STEP = 0 →
        simulate agents p rng = Except.error PyErr.zeroDivision) ∧
      (p.TIME_STEP < 0 → 0 ≤ p.NUM_YEARS →
        simulate agents p rng = Except.ok ([], agents, rng)) := by
  constructor
  · intro h
    unfold simulate
    rw [if_pos h]
  · intro hneg hy
    have hq : p.NUM_YEARS / p.TIME_STEP ≤ 0 :=
      div_nonpos_iff.mpr (Or.inl ⟨hy, hneg.le⟩)
    have hto : (pyInt (p.NUM_YEARS / p.TIME_STEP)).toNat = 0 := by
      have := pyInt_nonpos _ hq
      omega
    unfold simulate
    rw [if_neg (ne_of_lt hneg), hto, simLoop_zero]

/-- Witness for the amended C7: a zero time step raises before the loop. -/
theorem timestep_no_validation_witness :
    simulate [agent1] pZero constRng = Except.error PyErr.zeroDivision :=
  (timestep_no_validation pZero [agent1] constRng).1 rfl

/-- Counterexample to C7 as stated: a negative time step is not surfaced as a
configuration error — the run silently completes with zero steps. -/
theorem timestep_guard_counterexample :
    simulate [agent1] pNeg constRng = Except.ok ([], [agent1], constRng) := by
  unfold simulate
  rw [if_neg (by norm_num [pNeg])]
  have hto : (pyInt (pNeg.NUM_YEARS / pNeg.TIME_STEP)).toNat = 0 := by
    have hq : pNeg.NUM_YEARS / pNeg.TIME_STEP ≤ 0 := by norm_num [pNeg]
    have := pyInt_nonpos _ hq
    omega
  rw [hto, simLoop_zero]

end Tutsim
